import Mathlib

/-!
Verification of `PyQtThemeable/ThemeProvider.py`: a shallow embedding of the
theme registry, color codec, placeholder resolver and themeable binding,
together with theorems settling the specification's claims about them.

Python strings are modelled as `String`/`List Char`, Python dicts as
insertion-ordered association lists with in-place overwrite, Python
exceptions as an explicit `PyErr` error type threaded through `Except`,
and observer callbacks as opaque identifiers together with an oracle
telling which callbacks raise (callbacks are modelled as not mutating the
registry; re-entrant notification is outside the spec's scope).
-/

namespace PyQtThemeable

/-- The Python exceptions that `ThemeProvider.py` can raise: `AttributeError`
(accessing the never-initialised `base_theme` annotation, or an attribute of
`None`), `KeyError` (`self.themes[name]`), `ValueError` (`int(s, 16)` on a
malformed string, `list.index` on a missing element), the explicit
`Exception("No Theme set")` and `Exception("No StyleSheet set")`, and an
exception propagating out of observer callback `i`. -/
inductive PyErr where
  | attributeError
  | keyError
  | valueError
  | noThemeSet
  | noStyleSheet
  | callbackError (i : Nat)
  deriving DecidableEq, Repr

/-- A Python `dict` with string keys: an association list in insertion
order, where overwriting an existing key keeps its position. -/
abbrev Dict (α : Type) := List (String × α)

/-- Lookup in a Python dict (first matching key; keys are unique for dicts
built by `dictSet`). -/
def dictGet {α : Type} : Dict α → String → Option α
  | [], _ => none
  | (k, v) :: rest, key => if k = key then some v else dictGet rest key

/-- Assignment `d[key] = v` on a Python dict: replace in place if the key exists
(keeping insertion order), otherwise append at the end. -/
def dictSet {α : Type} : Dict α → String → α → Dict α
  | [], key, v => [(key, v)]
  | (k, w) :: rest, key, v =>
    if k = key then (k, v) :: rest else (k, w) :: dictSet rest key v

/-- Python merge `{**base, **d}`: start from `base` and write every entry of
`d` over it in order, so `d`'s values win on key conflicts and `d`'s new
keys are appended after `base`'s. -/
def dictMerge {α : Type} (base d : Dict α) : Dict α :=
  d.foldl (fun acc kv => dictSet acc kv.1 kv.2) base

/-- ASCII hexadecimal digit (`0-9`, `a-f`, `A-F`), the digits accepted by
Python's `int(s, 16)`. -/
def isHexDigit (c : Char) : Bool :=
  (48 ≤ c.toNat && c.toNat ≤ 57) ||
  (97 ≤ c.toNat && c.toNat ≤ 102) ||
  (65 ≤ c.toNat && c.toNat ≤ 70)

/-- Value of a hexadecimal digit character. -/
def hexVal (c : Char) : Nat :=
  if c.toNat ≤ 57 then c.toNat - 48
  else if 97 ≤ c.toNat then c.toNat - 87
  else c.toNat - 55

/-- Python's `int(s, 16)` on the strings this code ever passes to it:
raises `ValueError` on the empty string or when a character is not a
hexadecimal digit, otherwise folds the digits in base 16. (CPython also
tolerates surrounding whitespace, a sign and underscores; no such string
is produced by the slicing in `hex_to_rgb`, and no claim quantifies over
them.) -/
def parseHexNat (cs : List Char) : Except PyErr Nat :=
  if cs.isEmpty then .error .valueError
  else if cs.all isHexDigit then
    .ok (cs.foldl (fun a c => 16 * a + hexVal c) 0)
  else .error .valueError

/-- Model of `s.lstrip('#')`: drop every leading `'#'`. -/
def pyStripHash (cs : List Char) : List Char :=
  cs.dropWhile (fun c => c = '#')

/-- The Python slice `s[i:i+2]`. -/
def slice2 (cs : List Char) (i : Nat) : List Char :=
  (cs.drop i).take 2

/-- Function `hex_to_rgb` from `ThemeProvider.py`: strip leading `'#'`s, then parse
the slices `[0:2]`, `[2:4]`, `[4:6]` as hexadecimal integers. Characters
past index 5 are never looked at, and a slice that is short (or empty)
is handed to `int` as-is. -/
def hex_to_rgb (s : String) : Except PyErr (Nat × Nat × Nat) := do
  let t := pyStripHash s.data
  let r ← parseHexNat (slice2 t 0)
  let g ← parseHexNat (slice2 t 2)
  let b ← parseHexNat (slice2 t 4)
  return (r, g, b)

/-- The lowercase hexadecimal digit character for `n < 16`. -/
def hexDigitChar (n : Nat) : Char :=
  if n < 10 then Char.ofNat (48 + n) else Char.ofNat (87 + n)

/-- Digit-extraction loop for `natToHex`; the fuel only bounds the
recursion depth and is never exhausted at the fuel `natToHex` passes,
since `v / 16 < v` whenever `v ≥ 16`. -/
def natToHexAux (fuel v : Nat) : List Char :=
  match fuel with
  | 0 => []
  | fuel + 1 =>
    if v < 16 then [hexDigitChar v]
    else natToHexAux fuel (v / 16) ++ [hexDigitChar (v % 16)]

/-- Lowercase hexadecimal digits of `v` (no padding), most significant
first — Python's `'{:x}'.format(v)` for `v ≥ 0`. -/
def natToHex (v : Nat) : List Char :=
  natToHexAux (v + 1) v

/-- Zero-pad to width 2, as `'{:02x}'` does (a minimum width: longer
results pass through). -/
def pad2 (cs : List Char) : List Char :=
  if cs.length < 2 then '0' :: cs else cs

/-- Function `rgb_to_hex` from `ThemeProvider.py`:
`'#{:02x}{:02x}{:02x}'.format(r, g, b)`. -/
def rgb_to_hex (r g b : Nat) : String :=
  ⟨'#' :: (pad2 (natToHex r) ++ pad2 (natToHex g) ++ pad2 (natToHex b))⟩

/-- One channel of `ThemeProvider.modifyColor`:
`max(int(c * (1 - (factor/1000))), 0)`. Python evaluates the product in
binary floating point and `int` truncates toward zero; truncating integer
division of `c * (1000 - factor)` by `1000` is the exact-arithmetic
counterpart, and it coincides with the float computation at every factor
this development evaluates (0 and 500, whose `factor/1000` is exactly
representable). -/
def modifyChannel (factor : Int) (c : Nat) : Nat :=
  (max (Int.tdiv ((c : Int) * (1000 - factor)) 1000) 0).toNat

/-- Method `ThemeProvider.modifyColor`: decode, darken every channel by
`factor` parts-per-thousand (clamping at 0), re-encode. -/
def modifyColor (hex_color : String) (factor : Int) : Except PyErr String := do
  let (r, g, b) ← hex_to_rgb hex_color
  return rgb_to_hex (modifyChannel factor r) (modifyChannel factor g)
    (modifyChannel factor b)

/-- The `Theme` class: a name together with its attribute dict
(`theme_obj`). Themes are compared structurally here; two Python `Theme`
objects created by distinct constructor calls are distinct objects, and
structural inequality below always suffices to witness that. -/
structure Theme where
  name : String
  theme_obj : Dict String
  deriving DecidableEq, Repr

/-- The mutable state of the `ThemeProvider` singleton. `base_theme` is
declared in the class body only as an annotation and never initialised in
`__new__`, so `none` models "attribute absent: reading raises
`AttributeError`"; `addBase` always stores an actual `Theme`, so a stored
`None` is unreachable. Observer callbacks are opaque identifiers. -/
structure Registry where
  themes : Dict Theme
  base_theme : Option Theme
  current_theme : Option Theme
  observers : List Nat
  deriving DecidableEq, Repr

/-- The state set up by `ThemeProvider.__new__` on first construction:
empty `themes`, `current_theme = None`, the class-level observer list
empty, and `base_theme` never assigned. -/
def freshRegistry : Registry :=
  { themes := [], base_theme := none, current_theme := none, observers := [] }

/-- Method `ThemeProvider.addTheme`: evaluating `self.base_theme` raises
`AttributeError` when the attribute was never assigned; otherwise the
stored theme's attributes are `{**self.base_theme.theme_obj, **theme_obj}`
(the `is not None` guard's false branch is unreachable, since `addBase`
never stores `None`). -/
def addTheme (r : Registry) (name : String) (theme_obj : Dict String) :
    Except PyErr Registry :=
  match r.base_theme with
  | none => .error .attributeError
  | some b =>
    .ok { r with
          themes := dictSet r.themes name ⟨name, dictMerge b.theme_obj theme_obj⟩ }

/-- Method `ThemeProvider.addBase`: `self.base_theme = Theme("_base_", base_obj)`. -/
def addBase (r : Registry) (base_obj : Dict String) : Registry :=
  { r with base_theme := some ⟨"_base_", base_obj⟩ }

/-- Method `ThemeProvider.addObserver`: append the callback to the observer
list. -/
def addObserver (r : Registry) (cb : Nat) : Registry :=
  { r with observers := r.observers ++ [cb] }

/-- Method `ThemeProvider.notifyObservers` with callbacks abstracted by the
oracle `fails`: invoke the callbacks in registration order; if one raises,
its exception propagates and the callbacks after it are not invoked.
Returns the list of callbacks actually invoked (the raising one included)
and the propagating exception, if any. -/
def notifyObservers (obs : List Nat) (fails : Nat → Bool) :
    List Nat × Option PyErr :=
  match obs with
  | [] => ([], none)
  | o :: rest =>
    if fails o then ([o], some (.callbackError o))
    else
      let (inv, e) := notifyObservers rest fails
      (o :: inv, e)

/-- Method `ThemeProvider.setTheme`: `self.current_theme = self.themes[name]`
(the dict lookup raises `KeyError` before the assignment happens, leaving
all state unchanged), then `self.notifyObservers()`. Returns the state
after the call, the callbacks invoked, and the exception propagating out
of the call, if any. -/
def setTheme (r : Registry) (name : String) (fails : Nat → Bool) :
    Registry × List Nat × Option PyErr :=
  match dictGet r.themes name with
  | none => (r, [], some .keyError)
  | some t =>
    let r' := { r with current_theme := some t }
    let (inv, e) := notifyObservers r.observers fails
    (r', inv, e)

/-- Python's `list.index`: position of the first occurrence, `None`
standing for the `ValueError` it raises when absent. -/
def listIndex : List String → String → Option Nat
  | [], _ => none
  | y :: rest, x => if y = x then some 0 else (listIndex rest x).map (· + 1)

/-- Method `ThemeProvider.incrementTheme`: reading `self.current_theme.name`
raises `AttributeError` when no theme is active; `themes.index` raises
`ValueError` when the active name is not a key (unreachable from the
public operations); otherwise `setTheme` on the key at the next index,
cyclically. -/
def incrementTheme (r : Registry) (fails : Nat → Bool) :
    Registry × List Nat × Option PyErr :=
  match r.current_theme with
  | none => (r, [], some .attributeError)
  | some t =>
    let ks := r.themes.map Prod.fst
    match listIndex ks t.name with
    | none => (r, [], some .valueError)
    | some i => setTheme r (ks.getD ((i + 1) % ks.length) "") fails

/-- Method `ThemeProvider.getAttr`: with no active theme, the attribute access on
`None` raises `AttributeError`, caught and re-raised as
`Exception("No Theme set")`. Otherwise `theme_obj.get(key, "#000000")`,
passed through `modifyColor` when the modifier is truthy (`if modifier:`
— `None` and `0` are falsy). -/
def getAttr (r : Registry) (key : String) (modifier : Option Int) :
    Except PyErr String :=
  match r.current_theme with
  | none => .error .noThemeSet
  | some t =>
    let attr := (dictGet t.theme_obj key).getD "#000000"
    match modifier with
    | none => .ok attr
    | some m => if m = 0 then .ok attr else modifyColor attr m

/-- regex `\w` on the ASCII templates this development quantifies over
(Python's `\w` is Unicode-aware beyond ASCII). -/
def isWordChar (c : Char) : Bool :=
  (48 ≤ c.toNat && c.toNat ≤ 57) ||
  (65 ≤ c.toNat && c.toNat ≤ 90) ||
  (97 ≤ c.toNat && c.toNat ≤ 122) ||
  c = '_'

/-- regex `\d`. -/
def isDigitChar (c : Char) : Bool :=
  48 ≤ c.toNat && c.toNat ≤ 57

/-- Numeric value of a digit string — `int(mod.replace("[","").replace("]",""))`
applied to the matched modifier group. -/
def digitsToNat (ds : List Char) : Nat :=
  ds.foldl (fun a c => 10 * a + (c.toNat - 48)) 0

/-- One attempted match of `theme\.(\w+)(\[\d+\])?` anchored at the head
of `cs`: on success, the attribute name (greedy `\w+`), the modifier when
the optional group `(\[\d+\])?` matches (greedy digits immediately
followed by `]`), and the text after the match. A `[` not followed by
digits-then-`]` makes the optional group match empty, leaving the `[` as
following text. -/
def matchPlaceholder (cs : List Char) : Option (String × Option Nat × List Char) :=
  match cs with
  | 't' :: 'h' :: 'e' :: 'm' :: 'e' :: '.' :: rest =>
    let w := rest.takeWhile isWordChar
    if w.isEmpty then none
    else
      let rest' := rest.dropWhile isWordChar
      match rest' with
      | '[' :: rest2 =>
        let ds := rest2.takeWhile isDigitChar
        if ds.isEmpty then some (⟨w⟩, none, rest')
        else
          match rest2.dropWhile isDigitChar with
          | ']' :: rest3 => some (⟨w⟩, some (digitsToNat ds), rest3)
          | _ => some (⟨w⟩, none, rest')
      | _ => some (⟨w⟩, none, rest')
  | _ => none

/-- The scanning loop of `re.sub` with the replacer of
`Themeable._replacePlaceholders`: left-to-right, non-overlapping; at a
non-matching position the character passes through and scanning resumes
one character later; an exception raised by the replacer (the `getAttr`
lookup) propagates. `fuel` only bounds the recursion; every call below
passes the input length, which each step never exhausts since a match
consumes at least seven characters. -/
def substAux (lookup : String → Option Nat → Except PyErr String) :
    Nat → List Char → Except PyErr (List Char)
  | 0, _ => .ok []
  | _, [] => .ok []
  | fuel + 1, c :: rest =>
    match matchPlaceholder (c :: rest) with
    | some (attr, m, rest') => do
      let rep ← lookup attr m
      let tail ← substAux lookup fuel rest'
      return rep.data ++ tail
    | none => do
      let tail ← substAux lookup fuel rest
      return c :: tail

/-- Whether `theme\.(\w+)(\[\d+\])?` matches anywhere in `cs`. -/
def hasPlaceholder : List Char → Bool
  | [] => false
  | c :: rest => (matchPlaceholder (c :: rest)).isSome || hasPlaceholder rest

/-- Method `Themeable._replacePlaceholders` on a given registry state:
`re.sub(r'theme\.(\w+)(\[\d+\])?', replacer, self.style_sheet)`, where the
replacer calls `self.provider.getAttr(attribute)` or
`getAttr(attribute, int(mod))` according to the optional group. -/
def replacePlaceholders (r : Registry) (style_sheet : String) :
    Except PyErr String :=
  (substAux (fun a m => getAttr r a (m.map Int.ofNat))
    style_sheet.data.length style_sheet.data).map fun cs => ⟨cs⟩

/-- Method `Themeable.getThemeStyle`: `Exception("No StyleSheet set")` when the
style sheet is `None` (the provider, set in `__init__`, is never `None`
there), otherwise `_replacePlaceholders`. -/
def getThemeStyle (r : Registry) (style_sheet : Option String) :
    Except PyErr String :=
  match style_sheet with
  | none => .error .noStyleSheet
  | some ss => replacePlaceholders r ss

/-- Constructor `Themeable.__init__` against registry state `r`: the constructor first
registers `self.onThemeChange` (identifier `cb`) via
`provider.addObserver`, stores the style sheet and widget, and only then
runs `self.widget.setStyleSheet(self.getThemeStyle())`. Python evaluates
the primary `self.widget.setStyleSheet` before the argument, so with a
`None` widget the attribute access raises `AttributeError` at once and
`getThemeStyle` never runs; with a widget present, an exception from
`getThemeStyle` propagates. Either way the exception escapes the
constructor with the observer already appended. Returns the registry
state after the call and either the style string applied to the widget or
the escaping exception. -/
def themeableInit (r : Registry) (cb : Nat) (widget : Bool)
    (style_sheet : Option String) : Registry × Except PyErr String :=
  let r' := addObserver r cb
  if widget then (r', getThemeStyle r' style_sheet)
  else (r', .error .attributeError)

/-- The strings the spec's color claims quantify over: an optional single
leading `'#'` followed by exactly six hexadecimal digits of either
case. -/
def Valid6 (s : String) : Prop :=
  ∃ a b c d e f : Char, [a, b, c, d, e, f].all isHexDigit = true ∧
    (s.data = [a, b, c, d, e, f] ∨ s.data = '#' :: [a, b, c, d, e, f])

/-- The claim's normalisation of a color string: drop the optional leading
`'#'`, lowercase the digits, prefix `'#'`. (Stated from the spec's words,
as the comparison target of the round-trip law.) -/
def lowerChar (c : Char) : Char :=
  if 65 ≤ c.toNat ∧ c.toNat ≤ 90 then Char.ofNat (c.toNat + 32) else c

/-- Normal form described by the spec: `#` plus lowercase digits. -/
def normalizeHex (s : String) : String :=
  let t := if s.data.head? = some '#' then s.data.tail else s.data
  ⟨'#' :: t.map lowerChar⟩

/-- A registry whose active theme resolves attribute `bg` to `"#ffffff"`,
the lookup of claim C3. -/
def regC3 : Registry :=
  { themes := [("t", ⟨"t", [("bg", "#ffffff")]⟩)], base_theme := none,
    current_theme := some ⟨"t", [("bg", "#ffffff")]⟩, observers := [] }

/-- C3, as stated, is false: under a lookup where `bg` resolves to
`"#ffffff"`, resolving `"theme.bg[500]"` does not return `"#808080"` —
each channel is `int(255 * 0.5) = 127`, giving `"#7f7f7f"`. -/
theorem C3_counterexample :
    replacePlaceholders regC3 "theme.bg[500]" = .ok "#7f7f7f" ∧
      ("#7f7f7f" : String) ≠ "#808080" := by
  exact ⟨rfl, by decide⟩

/-- C3 (amended): resolving the template `"theme.bg[500]"` with a lookup
under which attribute `bg` resolves to `"#ffffff"` returns the string
`"#7f7f7f"` (each channel `max(int(255 * (1 - 500/1000)), 0) = 127`). -/
theorem C3_resolve_bg_500 :
    replacePlaceholders regC3 "theme.bg[500]" = .ok "#7f7f7f" := rfl

/-- C4: on a registry on which no base theme has ever been set,
`addTheme` does not succeed: `base_theme` exists in the class body only
as an annotation and is never initialised, so evaluating the guard
`if (self.base_theme is not None)` raises `AttributeError`. The guard
itself shows the intended default was `None` (as is done for
`current_theme` in `__new__`), making this a slip in the code rather
than in the spec. -/
theorem C4_addTheme_without_base_raises :
    addTheme freshRegistry "dark" [("bg", "#222222")] =
      .error .attributeError := rfl

/-- C7, as stated, is false: `hex_to_rgb` accepts `"1234567"`, a string
of seven hexadecimal digits, decoding its first six and ignoring the
rest, instead of failing. -/
theorem C7_counterexample :
    ¬ Valid6 "1234567" ∧ hex_to_rgb "1234567" = .ok (18, 52, 86) := by
  constructor
  · rintro ⟨a, b, c, d, e, f, -, h | h⟩
    · have hlen := congrArg List.length h
      simp at hlen
    · have h7 : "1234567".data = ['1', '2', '3', '4', '5', '6', '7'] := rfl
      rw [h7] at h
      injection h with h1 _
      exact absurd h1 (by decide)
  · rfl

/-- C8, as stated, is false: `"#FFFFFF"` is decodable, but
`modifyColor("#FFFFFF", 0)` returns the re-encoded lowercase form
`"#ffffff"`, not the input string itself. -/
theorem C8_counterexample :
    modifyColor "#FFFFFF" 0 = .ok "#ffffff" ∧
      ("#ffffff" : String) ≠ "#FFFFFF" := by
  exact ⟨rfl, by decide⟩

/-- C1, as stated, is false: constructing a `Themeable` against a fresh
registry (no active theme) with template `"theme.bg"` does raise
`Exception("No Theme set")`, but the constructor has already appended
`self.onThemeChange` to the observer list before the failing resolve, so
the registry's observer list differs before and after the failed
construction. -/
theorem C1_counterexample :
    (themeableInit freshRegistry 7 true (some "theme.bg")).2 =
        .error .noThemeSet ∧
      (themeableInit freshRegistry 7 true (some "theme.bg")).1.observers ≠
        freshRegistry.observers := by
  exact ⟨rfl, by decide⟩

theorem hexVal_lt (c : Char) (h : isHexDigit c = true) : hexVal c < 16 := by
  simp only [isHexDigit, Bool.or_eq_true, Bool.and_eq_true, decide_eq_true_eq] at h
  unfold hexVal
  rcases h with (⟨h1, h2⟩ | ⟨h1, h2⟩) | ⟨h1, h2⟩ <;> split <;> try split
  all_goals omega

theorem hexDigitChar_hexVal (c : Char) (h : isHexDigit c = true) :
    hexDigitChar (hexVal c) = lowerChar c := by
  simp only [isHexDigit, Bool.or_eq_true, Bool.and_eq_true, decide_eq_true_eq] at h
  rcases h with (⟨h1, h2⟩ | ⟨h1, h2⟩) | ⟨h1, h2⟩
  · have hv : hexVal c = c.toNat - 48 := by
      unfold hexVal; rw [if_pos (by omega)]
    rw [hv]
    unfold hexDigitChar lowerChar
    rw [if_pos (by omega), if_neg (by omega)]
    have e : 48 + (c.toNat - 48) = c.toNat := by omega
    rw [e, Char.ofNat_toNat]
  · have hv : hexVal c = c.toNat - 87 := by
      unfold hexVal; rw [if_neg (by omega), if_pos (by omega)]
    rw [hv]
    unfold hexDigitChar lowerChar
    rw [if_neg (by omega), if_neg (by omega)]
    have e : 87 + (c.toNat - 87) = c.toNat := by omega
    rw [e, Char.ofNat_toNat]
  · have hv : hexVal c = c.toNat - 55 := by
      unfold hexVal; rw [if_neg (by omega), if_neg (by omega)]
    rw [hv]
    unfold hexDigitChar lowerChar
    rw [if_neg (by omega), if_pos (by omega)]
    have e : 87 + (c.toNat - 55) = c.toNat + 32 := by omega
    rw [e]

theorem hexDigit_ne_hash (c : Char) (h : isHexDigit c = true) : c ≠ '#' := by
  simp only [isHexDigit, Bool.or_eq_true, Bool.and_eq_true, decide_eq_true_eq] at h
  intro he
  have : c.toNat = 35 := by rw [he]; rfl
  omega

theorem parseHexNat_pair (a b : Char) (ha : isHexDigit a = true)
    (hb : isHexDigit b = true) :
    parseHexNat [a, b] = .ok (16 * hexVal a + hexVal b) := by
  simp [parseHexNat, ha, hb, List.foldl]

theorem parseHexNat_error (cs : List Char) (e : PyErr)
    (h : parseHexNat cs = .error e) : e = .valueError := by
  unfold parseHexNat at h
  split at h
  · exact (Except.error.inj h).symm
  · split at h
    · exact absurd h (by simp)
    · exact (Except.error.inj h).symm

theorem natToHexAux_small (fuel v : Nat) (h : v < 16) :
    natToHexAux (fuel + 1) v = [hexDigitChar v] := by
  simp [natToHexAux, h]

theorem pad2_natToHex (v : Nat) (hv : v < 256) :
    pad2 (natToHex v) = [hexDigitChar (v / 16), hexDigitChar (v % 16)] := by
  by_cases h : v < 16
  · rw [natToHex, natToHexAux_small v v h]
    have e1 : v / 16 = 0 := by omega
    have e2 : v % 16 = v := by omega
    rw [e1, e2, pad2]
    simp
    decide
  · obtain ⟨w, rfl⟩ : ∃ w, v = w + 1 := ⟨v - 1, by omega⟩
    rw [natToHex, natToHexAux]
    rw [if_neg h, natToHexAux_small w ((w + 1) / 16) (by omega)]
    rfl

theorem stripHash_hex (ds : List Char) (h : ds.all isHexDigit = true) :
    pyStripHash ('#' :: ds) = ds := by
  cases ds with
  | nil => rfl
  | cons a rest =>
    have ha : isHexDigit a = true := by
      simp only [List.all_cons, Bool.and_eq_true] at h
      exact h.1
    simp [pyStripHash, List.dropWhile, hexDigit_ne_hash a ha]

/-- Round-trip core: decoding a well-formed 6-digit color and re-encoding
it yields the spec's normal form. -/
theorem hexRoundtrip (s : String) (h : Valid6 s) :
    ∃ r g b, hex_to_rgb s = .ok (r, g, b) ∧
      rgb_to_hex r g b = normalizeHex s := by
  obtain ⟨a, b, c, d, e, f, hall, hd⟩ := h
  simp only [List.all_cons, List.all_nil, Bool.and_eq_true, Bool.and_true] at hall
  obtain ⟨ha, hb, hc, hd', he, hf⟩ := hall
  refine ⟨16 * hexVal a + hexVal b, 16 * hexVal c + hexVal d,
    16 * hexVal e + hexVal f, ?_, ?_⟩
  · have hstrip : pyStripHash s.data = [a, b, c, d, e, f] := by
      rcases hd with h6 | h6 <;> rw [h6]
      · simp [pyStripHash, List.dropWhile, hexDigit_ne_hash a ha]
      · exact stripHash_hex [a, b, c, d, e, f]
          (by simp [ha, hb, hc, hd', he, hf])
    rw [hex_to_rgb, hstrip]
    have s0 : slice2 [a, b, c, d, e, f] 0 = [a, b] := rfl
    have s2 : slice2 [a, b, c, d, e, f] 2 = [c, d] := rfl
    have s4 : slice2 [a, b, c, d, e, f] 4 = [e, f] := rfl
    rw [s0, s2, s4, parseHexNat_pair a b ha hb, parseHexNat_pair c d hc hd',
      parseHexNat_pair e f he hf]
    rfl
  · have pv : ∀ x y : Char, isHexDigit x = true → isHexDigit y = true →
        pad2 (natToHex (16 * hexVal x + hexVal y)) = [lowerChar x, lowerChar y] := by
      intro x y hx hy
      have hx16 := hexVal_lt x hx
      have hy16 := hexVal_lt y hy
      rw [pad2_natToHex (16 * hexVal x + hexVal y) (by omega)]
      have e1 : (16 * hexVal x + hexVal y) / 16 = hexVal x := by omega
      have e2 : (16 * hexVal x + hexVal y) % 16 = hexVal y := by omega
      rw [e1, e2, hexDigitChar_hexVal x hx, hexDigitChar_hexVal y hy]
    have hnorm : normalizeHex s =
        ⟨'#' :: [lowerChar a, lowerChar b, lowerChar c, lowerChar d,
          lowerChar e, lowerChar f]⟩ := by
      rcases hd with h6 | h6 <;>
        simp [normalizeHex, h6, List.head?, hexDigit_ne_hash a ha]
    rw [rgb_to_hex, pv a b ha hb, pv c d hc hd', pv e f he hf, hnorm]
    rfl

/-- C6: for every string of an optional leading `'#'` and exactly six
hexadecimal digits (either case), decoding with `hex_to_rgb` and
re-encoding with `rgb_to_hex` yields the normalisation of the input:
lowercase digits behind a `'#'` prefix. -/
theorem C6_roundtrip (s : String) (h : Valid6 s) :
    ∃ r g b, hex_to_rgb s = .ok (r, g, b) ∧
      rgb_to_hex r g b = normalizeHex s :=
  hexRoundtrip s h

/-- Witness for C6 at `"#AbCdEf"`. -/
theorem C6_roundtrip_witness :
    ∃ r g b, hex_to_rgb "#AbCdEf" = .ok (r, g, b) ∧
      rgb_to_hex r g b = normalizeHex "#AbCdEf" :=
  C6_roundtrip "#AbCdEf"
    ⟨'A', 'b', 'C', 'd', 'E', 'f', by decide, Or.inr rfl⟩

/-- C7 (amended): after the optional `'#'` prefix, `hex_to_rgb` accepts
any string of at least five hexadecimal digits — not exactly six: the
slices `[0:2]`, `[2:4]`, `[4:6]` never look past the sixth digit, so
longer strings decode to the value of their first six digits, and a
fifth digit alone serves as the blue channel — and raises `ValueError`
for such strings only when fewer than five digits are present. -/
theorem C7_decode_accepts (ds : List Char) (hx : ds.all isHexDigit = true) :
    (5 ≤ ds.length → ∃ v, hex_to_rgb ⟨'#' :: ds⟩ = .ok v) ∧
    (ds.length ≤ 4 → hex_to_rgb ⟨'#' :: ds⟩ = .error .valueError) ∧
    (6 ≤ ds.length → hex_to_rgb ⟨'#' :: ds⟩ = hex_to_rgb ⟨'#' :: ds.take 6⟩) := by
  have hdata : (⟨'#' :: ds⟩ : String).data = '#' :: ds := rfl
  refine ⟨?_, ?_, ?_⟩
  · intro h5
    rcases ds with _ | ⟨a, _ | ⟨b, _ | ⟨c, _ | ⟨d, _ | ⟨e, rest⟩⟩⟩⟩⟩ <;>
      simp only [List.length] at h5 <;> try omega
    simp only [List.all_cons, Bool.and_eq_true] at hx
    obtain ⟨ha, hb, hc, hd, he, hrest⟩ := hx
    unfold hex_to_rgb
    rw [hdata, stripHash_hex _ (by simp [ha, hb, hc, hd, he, hrest])]
    dsimp only
    have s0 : slice2 (a :: b :: c :: d :: e :: rest) 0 = [a, b] := rfl
    have s2 : slice2 (a :: b :: c :: d :: e :: rest) 2 = [c, d] := rfl
    rw [s0, s2, parseHexNat_pair a b ha hb, parseHexNat_pair c d hc hd]
    rcases rest with _ | ⟨f, rest'⟩
    · rw [show slice2 [a, b, c, d, e] 4 = [e] from rfl,
        show parseHexNat [e] = .ok (hexVal e) from by simp [parseHexNat, he]]
      exact ⟨_, rfl⟩
    · have hf : isHexDigit f = true := by
        simp only [List.all_cons, Bool.and_eq_true] at hrest
        exact hrest.1
      rw [show slice2 (a :: b :: c :: d :: e :: f :: rest') 4 = [e, f] from rfl,
        parseHexNat_pair e f he hf]
      exact ⟨_, rfl⟩
  · intro h4
    have hb4 : slice2 ds 4 = [] := by
      unfold slice2
      rw [List.drop_eq_nil_of_le (by omega)]
      rfl
    unfold hex_to_rgb
    rw [hdata, stripHash_hex ds hx]
    dsimp only
    rw [hb4]
    cases h0 : parseHexNat (slice2 ds 0) with
    | error e =>
      have hev : e = PyErr.valueError := parseHexNat_error _ _ h0
      subst hev
      rfl
    | ok r =>
      cases h2 : parseHexNat (slice2 ds 2) with
      | error e =>
        have hev : e = PyErr.valueError := parseHexNat_error _ _ h2
        subst hev
        rfl
      | ok g => rfl
  · intro h6
    rcases ds with _ | ⟨a, _ | ⟨b, _ | ⟨c, _ | ⟨d, _ | ⟨e, _ | ⟨f, rest⟩⟩⟩⟩⟩⟩ <;>
      simp only [List.length] at h6 <;> try omega
    simp only [List.all_cons, Bool.and_eq_true] at hx
    obtain ⟨ha, hb, hc, hd, he, hf, hrest⟩ := hx
    unfold hex_to_rgb
    rw [hdata, show (⟨'#' :: (a :: b :: c :: d :: e :: f :: rest).take 6⟩ :
        String).data = '#' :: [a, b, c, d, e, f] from rfl,
      stripHash_hex _ (by simp [ha, hb, hc, hd, he, hf, hrest]),
      stripHash_hex _ (by simp [ha, hb, hc, hd, he, hf])]
    rfl

/-- Witness for C7's amended theorem at the seven-digit string
`"abcdef0"`. -/
theorem C7_decode_accepts_witness :
    (5 ≤ ['a', 'b', 'c', 'd', 'e', 'f', '0'].length →
      ∃ v, hex_to_rgb ⟨'#' :: ['a', 'b', 'c', 'd', 'e', 'f', '0']⟩ = .ok v) ∧
    (['a', 'b', 'c', 'd', 'e', 'f', '0'].length ≤ 4 →
      hex_to_rgb ⟨'#' :: ['a', 'b', 'c', 'd', 'e', 'f', '0']⟩ =
        .error .valueError) ∧
    (6 ≤ ['a', 'b', 'c', 'd', 'e', 'f', '0'].length →
      hex_to_rgb ⟨'#' :: ['a', 'b', 'c', 'd', 'e', 'f', '0']⟩ =
        hex_to_rgb ⟨'#' :: ['a', 'b', 'c', 'd', 'e', 'f', '0'].take 6⟩) :=
  C7_decode_accepts ['a', 'b', 'c', 'd', 'e', 'f', '0'] (by decide)

/-- A color string already in the canonical output form: decodable as an
optional-`'#'`-plus-six-hex-digits string and fixed by normalisation
(so `'#'`-prefixed, lowercase). -/
def Canonical (s : String) : Prop :=
  Valid6 s ∧ normalizeHex s = s

theorem modifyChannel_zero (c : Nat) : modifyChannel 0 c = c := by
  unfold modifyChannel
  rw [show ((1000 : Int) - 0) = 1000 by norm_num,
    Int.mul_tdiv_cancel _ (by norm_num)]
  omega

/-- C8 (amended): darkening with factor 0 decodes and re-encodes the
color unchanged, so it returns the normalised (lowercase, `'#'`-prefixed)
form of the input; it returns the input string itself exactly when the
input is already canonical. -/
theorem C8_darken_zero (s : String) (r g b : Nat)
    (h : hex_to_rgb s = .ok (r, g, b)) :
    modifyColor s 0 = .ok (rgb_to_hex r g b) ∧
      (Canonical s → modifyColor s 0 = .ok s) := by
  have hm : modifyColor s 0 = .ok (rgb_to_hex r g b) := by
    unfold modifyColor
    rw [h]
    simp [modifyChannel_zero]
  refine ⟨hm, fun hc => ?_⟩
  obtain ⟨hv, hn⟩ := hc
  obtain ⟨r', g', b', h', hrt⟩ := hexRoundtrip s hv
  rw [h] at h'
  obtain ⟨hr, hg, hb⟩ : r = r' ∧ g = g' ∧ b = b' := by
    have := Except.ok.inj h'
    exact ⟨congrArg Prod.fst this, congrArg (fun p => p.2.1) this,
      congrArg (fun p => p.2.2) this⟩
  rw [hm, hr, hg, hb, hrt, hn]

/-- Witness for C8's amended theorem at `"#12ab34"`. -/
theorem C8_darken_zero_witness :
    modifyColor "#12ab34" 0 = .ok (rgb_to_hex 18 171 52) ∧
      (Canonical "#12ab34" → modifyColor "#12ab34" 0 = .ok "#12ab34") :=
  C8_darken_zero "#12ab34" 18 171 52 rfl

/-- The spec's registry invariant: the active theme, if set, is one of
the values stored in `themes`. -/
def Inv (r : Registry) : Prop :=
  ∀ t, r.current_theme = some t → t ∈ r.themes.map Prod.snd

/-- Well-formedness every reachable registry enjoys: a stored theme's
`name` equals the key it is stored under (`addTheme` stores
`Theme(name, ...)` at key `name`, and keys are never removed). -/
def WF (r : Registry) : Prop :=
  ∀ k t, (k, t) ∈ r.themes → t.name = k

theorem dictGet_mem {α : Type} (d : Dict α) (k : String) (v : α)
    (h : dictGet d k = some v) : (k, v) ∈ d := by
  induction d with
  | nil => simp [dictGet] at h
  | cons kv rest ih =>
    obtain ⟨k', v'⟩ := kv
    unfold dictGet at h
    by_cases hk : k' = k
    · rw [if_pos hk] at h
      subst hk
      injection h with hv
      subst hv
      exact List.mem_cons_self _ _
    · rw [if_neg hk] at h
      exact List.mem_cons_of_mem _ (ih h)

theorem mem_dictSet_of_ne {α : Type} (d : Dict α) (key : String) (x : α)
    (k : String) (v : α) (hne : k ≠ key) (h : (k, v) ∈ d) :
    (k, v) ∈ dictSet d key x := by
  induction d with
  | nil => simp at h
  | cons kv rest ih =>
    obtain ⟨k', v'⟩ := kv
    unfold dictSet
    rcases List.mem_cons.mp h with heq | hmem
    · rw [Prod.mk.injEq] at heq
      obtain ⟨rfl, rfl⟩ := heq
      rw [if_neg (fun hkk => hne hkk)]
      exact List.mem_cons_self _ _
    · by_cases hk : k' = key
      · rw [if_pos hk]
        exact List.mem_cons_of_mem _ hmem
      · rw [if_neg hk]
        exact List.mem_cons_of_mem _ (ih hmem)

theorem mem_dictSet_elim {α : Type} (d : Dict α) (key : String) (x : α)
    (k : String) (v : α) (h : (k, v) ∈ dictSet d key x) :
    (k, v) ∈ d ∨ (k, v) = (key, x) := by
  induction d with
  | nil =>
    right
    simpa [dictSet] using h
  | cons kv rest ih =>
    obtain ⟨k', v'⟩ := kv
    unfold dictSet at h
    by_cases hk : k' = key
    · rw [if_pos hk] at h
      rcases List.mem_cons.mp h with heq | hmem
      · right
        rw [heq, hk]
      · left
        exact List.mem_cons_of_mem _ hmem
    · rw [if_neg hk] at h
      rcases List.mem_cons.mp h with heq | hmem
      · left
        exact List.mem_cons.mpr (Or.inl heq)
      · rcases ih hmem with h1 | h2
        · left
          exact List.mem_cons_of_mem _ h1
        · right
          exact h2

theorem setTheme_miss (r : Registry) (name : String) (fails : Nat → Bool)
    (h : dictGet r.themes name = none) :
    setTheme r name fails = (r, [], some .keyError) := by
  simp only [setTheme, h]

theorem setTheme_hit (r : Registry) (name : String) (t : Theme)
    (fails : Nat → Bool) (h : dictGet r.themes name = some t) :
    setTheme r name fails =
      ({ r with current_theme := some t }, notifyObservers r.observers fails) := by
  simp only [setTheme, h]

theorem setTheme_preserves (r : Registry) (hInv : Inv r) (hWF : WF r)
    (name : String) (fails : Nat → Bool) :
    Inv (setTheme r name fails).1 ∧ WF (setTheme r name fails).1 := by
  cases hget : dictGet r.themes name with
  | none =>
    rw [setTheme_miss r name fails hget]
    exact ⟨hInv, hWF⟩
  | some t =>
    rw [setTheme_hit r name t fails hget]
    constructor
    · intro t' ht'
      obtain rfl : t = t' := Option.some.inj ht'
      exact List.mem_map_of_mem Prod.snd (dictGet_mem _ _ _ hget)
    · exact hWF

/-- C2 (amended): in a well-formed state (stored names match their keys),
the invariant "the active theme is among the stored theme values" is
preserved by `addBase`, `addObserver`, `setTheme`, `incrementTheme`, and
by `addTheme` whenever the added name differs from the active theme's
name — the case `addTheme` overwrites the active theme's own name is the
one that violates it (see the counterexample). Well-formedness itself is
preserved by all of them. -/
theorem C2_invariant_preserved (r : Registry) (hInv : Inv r) (hWF : WF r) :
    (∀ bobj, Inv (addBase r bobj) ∧ WF (addBase r bobj)) ∧
    (∀ cb, Inv (addObserver r cb) ∧ WF (addObserver r cb)) ∧
    (∀ name fails, Inv (setTheme r name fails).1 ∧ WF (setTheme r name fails).1) ∧
    (∀ fails, Inv (incrementTheme r fails).1 ∧ WF (incrementTheme r fails).1) ∧
    (∀ name obj r', addTheme r name obj = .ok r' →
      WF r' ∧ ((∀ t, r.current_theme = some t → t.name ≠ name) → Inv r')) := by
  refine ⟨fun bobj => ⟨fun t ht => hInv t ht, fun k t hm => hWF k t hm⟩,
    fun cb => ⟨fun t ht => hInv t ht, fun k t hm => hWF k t hm⟩,
    fun name fails => setTheme_preserves r hInv hWF name fails,
    fun fails => ?_, fun name obj r' hadd => ?_⟩
  · cases hcur : r.current_theme with
    | none =>
      simp only [incrementTheme, hcur]
      exact ⟨hInv, hWF⟩
    | some t =>
      cases hidx : listIndex (r.themes.map Prod.fst) t.name with
      | none =>
        simp only [incrementTheme, hcur, hidx]
        exact ⟨hInv, hWF⟩
      | some i =>
        simp only [incrementTheme, hcur, hidx]
        exact setTheme_preserves r hInv hWF _ fails
  · unfold addTheme at hadd
    cases hbase : r.base_theme with
    | none =>
      rw [hbase] at hadd
      exact absurd hadd (by simp)
    | some b =>
      rw [hbase] at hadd
      injection hadd with hr'
      subst hr'
      constructor
      · intro k t hm
        rcases mem_dictSet_elim _ _ _ _ _ hm with h1 | h2
        · exact hWF k t h1
        · rw [Prod.mk.injEq] at h2
          rw [h2.2, ← h2.1]
      · intro hne t ht
        have hmem := hInv t ht
        obtain ⟨kv, hkv, hsnd⟩ := List.mem_map.mp hmem
        have hk : kv.2.name = kv.1 := hWF kv.1 kv.2 hkv
        have hkne : kv.1 ≠ name := by
          rw [← hk, hsnd]
          exact hne t ht
        have : (kv.1, kv.2) ∈ dictSet r.themes name
            ⟨name, dictMerge b.theme_obj obj⟩ :=
          mem_dictSet_of_ne _ _ _ _ _ hkne hkv
        have := List.mem_map_of_mem Prod.snd this
        rw [hsnd] at this
        exact this

/-- The theme stored first in claim C2's counterexample scenario. -/
def themeA1 : Theme := ⟨"a", [("k", "1")]⟩

/-- The overwriting theme in claim C2's counterexample scenario. -/
def themeA2 : Theme := ⟨"a", [("k", "2")]⟩

/-- Reachable registry with `themeA1` stored under `"a"` and active. -/
def regC2 : Registry :=
  { themes := [("a", themeA1)], base_theme := some ⟨"_base_", []⟩,
    current_theme := some themeA1, observers := [] }

/-- State `regC2` after `addTheme("a", {"k": "2"})`: the stored value changed
but the active theme still references the old object. -/
def regC2' : Registry :=
  { themes := [("a", themeA2)], base_theme := some ⟨"_base_", []⟩,
    current_theme := some themeA1, observers := [] }

/-- C2, as stated, is false: the state `regC2` is reachable
(`addBase`, `addTheme "a"`, `setTheme "a"`) and satisfies the invariant,
but `addTheme` overwriting the active theme's name leaves
`current_theme` pointing at the old `Theme`, which is no longer among
the stored values. -/
theorem C2_counterexample :
    addTheme (addBase freshRegistry []) "a" [("k", "1")] =
      .ok { regC2 with current_theme := none } ∧
    (setTheme { regC2 with current_theme := none } "a" (fun _ => false)).1 =
      regC2 ∧
    Inv regC2 ∧ WF regC2 ∧
    addTheme regC2 "a" [("k", "2")] = .ok regC2' ∧
    ¬ Inv regC2' := by
  refine ⟨rfl, rfl, ?_, ?_, rfl, ?_⟩
  · intro t ht
    obtain rfl : themeA1 = t := Option.some.inj ht
    decide
  · intro k t hm
    have h := List.mem_singleton.mp hm
    rw [Prod.mk.injEq] at h
    obtain ⟨rfl, rfl⟩ := h
    rfl
  · intro h
    exact absurd (h themeA1 rfl) (by decide)

/-- Witness for C2's amended theorem on a concrete state. -/
theorem C2_invariant_preserved_witness :
    Inv (addBase freshRegistry [("x", "y")]) ∧
      WF (addBase freshRegistry [("x", "y")]) :=
  (C2_invariant_preserved freshRegistry (fun _ ht => nomatch ht)
    (fun _ _ hm => nomatch hm)).1 [("x", "y")]

/-- C5: `setTheme` on a name absent from `themes` raises `KeyError` (the
spec's `UnknownTheme`) from the lookup on the right-hand side of the
assignment, before `current_theme` is written and before any observer is
notified: the state is returned unchanged and no callback is invoked. -/
theorem C5_setTheme_unknown (r : Registry) (name : String)
    (fails : Nat → Bool) (h : dictGet r.themes name = none) :
    setTheme r name fails = (r, [], some .keyError) :=
  setTheme_miss r name fails h

/-- Witness for C5 on the fresh registry. -/
theorem C5_setTheme_unknown_witness :
    setTheme freshRegistry "dark" (fun _ => false) =
      (freshRegistry, [], some .keyError) :=
  C5_setTheme_unknown freshRegistry "dark" (fun _ => false) rfl

theorem notifyObservers_all_ok (obs : List Nat) (fails : Nat → Bool)
    (h : ∀ x ∈ obs, fails x = false) :
    notifyObservers obs fails = (obs, none) := by
  induction obs with
  | nil => rfl
  | cons o rest ih =>
    have ho := h o (List.mem_cons_self o rest)
    have hr := ih fun x hx => h x (List.mem_cons_of_mem o hx)
    simp [notifyObservers, ho, hr]

theorem notifyObservers_fail (l1 : List Nat) (o : Nat) (l2 : List Nat)
    (fails : Nat → Bool) (hok : ∀ x ∈ l1, fails x = false)
    (hf : fails o = true) :
    notifyObservers (l1 ++ o :: l2) fails =
      (l1 ++ [o], some (.callbackError o)) := by
  induction l1 with
  | nil => simp [notifyObservers, hf]
  | cons a rest ih =>
    have ha := hok a (List.mem_cons_self a rest)
    have hr := ih fun x hx => hok x (List.mem_cons_of_mem a hx)
    simp [notifyObservers, ha, hr]

/-- C9: when `setTheme` is called with a registered name and an observer
callback raises, the exception propagates out of `setTheme`,
`current_theme` stays set to the newly selected theme (no rollback), and
the observers registered after the raising one are never invoked: the
invoked list is exactly the prefix up to and including the raising
callback. -/
theorem C9_observer_exception (r : Registry) (name : String) (t : Theme)
    (fails : Nat → Bool) (l1 l2 : List Nat) (o : Nat)
    (hget : dictGet r.themes name = some t)
    (hobs : r.observers = l1 ++ o :: l2)
    (hok : ∀ x ∈ l1, fails x = false) (hf : fails o = true) :
    setTheme r name fails =
      ({ r with current_theme := some t }, l1 ++ [o],
        some (.callbackError o)) := by
  rw [setTheme_hit r name t fails hget, hobs,
    notifyObservers_fail l1 o l2 fails hok hf]

/-- Registry for C9's witness: one registered theme, observers 1, 2, 3. -/
def regC9 : Registry :=
  { themes := [("a", themeA1)], base_theme := none,
    current_theme := none, observers := [1, 2, 3] }

/-- Witness for C9: observer 2 raises; observer 3 is not invoked and the
theme switch sticks. -/
theorem C9_observer_exception_witness :
    setTheme regC9 "a" (fun n => n == 2) =
      ({ regC9 with current_theme := some themeA1 }, [1, 2],
        some (.callbackError 2)) :=
  C9_observer_exception regC9 "a" themeA1 (fun n => n == 2) [1] [3] 2
    rfl rfl (by decide) rfl

theorem listIndex_lt (l : List String) (x : String) (i : Nat)
    (h : listIndex l x = some i) : i < l.length := by
  induction l generalizing i with
  | nil => simp [listIndex] at h
  | cons y rest ih =>
    unfold listIndex at h
    by_cases hy : y = x
    · rw [if_pos hy] at h
      obtain rfl : 0 = i := Option.some.inj h
      simp
    · rw [if_neg hy] at h
      cases hr : listIndex rest x with
      | none =>
        rw [hr] at h
        simp at h
      | some j =>
        rw [hr] at h
        have hj := ih j hr
        have : j + 1 = i := Option.some.inj h
        simp only [List.length_cons]
        omega

theorem getD_mem (l : List String) (n : Nat) (h : n < l.length) :
    l.getD n "" ∈ l := by
  induction l generalizing n with
  | nil => simp at h
  | cons y rest ih =>
    cases n with
    | zero => exact List.mem_cons_self y rest
    | succ m =>
      simp only [List.length_cons] at h
      exact List.mem_cons_of_mem _ (ih m (by omega))

theorem mem_keys_dictGet {α : Type} (d : Dict α) (k : String)
    (h : k ∈ d.map Prod.fst) : ∃ v, dictGet d k = some v := by
  induction d with
  | nil => simp at h
  | cons kv rest ih =>
    obtain ⟨k', v'⟩ := kv
    by_cases hk : k' = k
    · exact ⟨v', by unfold dictGet; rw [if_pos hk]⟩
    · have hmem : k ∈ rest.map Prod.fst := by
        rcases List.mem_cons.mp h with heq | hm
        · exact absurd heq.symm hk
        · exact hm
      obtain ⟨v, hv⟩ := ih hmem
      exact ⟨v, by unfold dictGet; rw [if_neg hk]; exact hv⟩

/-- C10: a successful `incrementTheme` hands off to `setTheme`, so it
both advances `current_theme` to the theme stored under the next key in
insertion order (wrapping cyclically) and synchronously invokes every
registered observer in registration order before returning, exactly as a
direct `setTheme` call does. -/
theorem C10_incrementTheme_notifies (r : Registry) (t : Theme) (i : Nat)
    (fails : Nat → Bool)
    (hcur : r.current_theme = some t)
    (hidx : listIndex (r.themes.map Prod.fst) t.name = some i)
    (hok : ∀ x ∈ r.observers, fails x = false) :
    ∃ t', dictGet r.themes
        ((r.themes.map Prod.fst).getD
          ((i + 1) % (r.themes.map Prod.fst).length) "") = some t' ∧
      incrementTheme r fails =
        ({ r with current_theme := some t' }, r.observers, none) := by
  have hlen : i < (r.themes.map Prod.fst).length := listIndex_lt _ _ i hidx
  have hmem : (r.themes.map Prod.fst).getD
      ((i + 1) % (r.themes.map Prod.fst).length) "" ∈ r.themes.map Prod.fst :=
    getD_mem _ _ (Nat.mod_lt _ (by omega))
  obtain ⟨t', ht'⟩ := mem_keys_dictGet _ _ hmem
  refine ⟨t', ht', ?_⟩
  simp only [incrementTheme, hcur, hidx]
  rw [setTheme_hit _ _ _ _ ht', notifyObservers_all_ok _ _ hok]

/-- Insertion-ordered registry for C10's witness. -/
def regC10 : Registry :=
  { themes := [("light", ⟨"light", [("bg", "#111111")]⟩),
               ("dark", ⟨"dark", [("bg", "#222222")]⟩),
               ("solarized", ⟨"solarized", [("bg", "#333333")]⟩)],
    base_theme := none,
    current_theme := some ⟨"dark", [("bg", "#222222")]⟩,
    observers := [4, 5] }

/-- Witness for C10: with `"dark"` active, advancing selects
`"solarized"` and notifies observers 4 and 5 in order. -/
theorem C10_incrementTheme_notifies_witness :
    ∃ t', dictGet regC10.themes
        ((regC10.themes.map Prod.fst).getD
          ((1 + 1) % (regC10.themes.map Prod.fst).length) "") = some t' ∧
      incrementTheme regC10 (fun _ => false) =
        ({ regC10 with current_theme := some t' }, regC10.observers, none) :=
  C10_incrementTheme_notifies regC10 ⟨"dark", [("bg", "#222222")]⟩ 1
    (fun _ => false) rfl rfl (fun _ _ => rfl)

theorem substAux_error (lookup : String → Option Nat → Except PyErr String)
    (E : PyErr) (hl : ∀ a m, lookup a m = .error E) :
    ∀ fuel cs, cs.length ≤ fuel → hasPlaceholder cs = true →
      substAux lookup fuel cs = .error E := by
  intro fuel
  induction fuel with
  | zero =>
    intro cs hlen hph
    cases cs with
    | nil => simp [hasPlaceholder] at hph
    | cons c rest => simp at hlen
  | succ f ih =>
    intro cs hlen hph
    cases cs with
    | nil => simp [hasPlaceholder] at hph
    | cons c rest =>
      unfold substAux
      cases hm : matchPlaceholder (c :: rest) with
      | some x =>
        obtain ⟨attr, m, rest'⟩ := x
        dsimp only
        rw [hl attr m]
        rfl
      | none =>
        have hph' : hasPlaceholder rest = true := by
          unfold hasPlaceholder at hph
          rw [hm] at hph
          simpa using hph
        dsimp only
        rw [ih rest (by simp only [List.length_cons] at hlen; omega) hph']
        rfl

/-- C1 (amended): constructing a `Themeable` while no theme is active,
with a widget and a style sheet containing at least one placeholder,
does fail with `Exception("No Theme set")` (with a `None` widget the
constructor fails even earlier, with `AttributeError` from
`None.setStyleSheet`, before `getThemeStyle` runs); but in either case
the binding IS left registered: the constructor appends its refresh
callback to the registry's observer list before that line, so after the
failed construction the observer list is the previous list with the new
callback appended — orphaned partial state remains. -/
theorem C1_construct_no_theme (r : Registry) (cb : Nat) (w : Bool)
    (ss : String) (hcur : r.current_theme = none)
    (hph : hasPlaceholder ss.data = true) :
    (themeableInit r cb w (some ss)).2 =
        .error (if w then PyErr.noThemeSet else PyErr.attributeError) ∧
      (themeableInit r cb w (some ss)).1.observers = r.observers ++ [cb] := by
  have hlook : ∀ a m, getAttr (addObserver r cb) a (Option.map Int.ofNat m) =
      .error PyErr.noThemeSet := by
    intro a m
    simp only [getAttr, addObserver, hcur]
  have hsub := substAux_error _ _ hlook ss.data.length ss.data (le_refl _) hph
  have hstyle : getThemeStyle (addObserver r cb) (some ss) =
      .error PyErr.noThemeSet := by
    unfold getThemeStyle replacePlaceholders
    dsimp only
    rw [hsub]
    rfl
  cases w with
  | true =>
    constructor
    · show getThemeStyle (addObserver r cb) (some ss) = .error PyErr.noThemeSet
      exact hstyle
    · rfl
  | false => exact ⟨rfl, rfl⟩

/-- Witness for C1's amended theorem on the fresh registry, with a
widget present. -/
theorem C1_construct_no_theme_witness :
    (themeableInit freshRegistry 3 true (some "x theme.fg y")).2 =
        .error .noThemeSet ∧
      (themeableInit freshRegistry 3 true (some "x theme.fg y")).1.observers =
        freshRegistry.observers ++ [3] :=
  C1_construct_no_theme freshRegistry 3 true "x theme.fg y" rfl (by decide)

end PyQtThemeable
